import Mathlib

/- Formal model of the SiteMapper repository (src/sitemap_generator.py).

   The crawler class SitemapGenerator is embedded shallowly: its mutable
   visited set becomes explicit state threaded through a recursive loop
   function, the HTTP fetcher and HTML link extractor (external collaborators
   requests / BeautifulSoup) become an oracle supplying, for each fetch
   attempt, either a transport error or a status code together with the raw
   href strings found on the page.  Machine integers are modelled as Int
   (Python integers are unbounded, so no wrap-around is involved).

   The stdlib collaborators urllib.parse.urlparse / urljoin are modelled
   below faithfully to CPython's algorithm for the split components scheme,
   netloc, path, query and fragment; the params component (";" handling) and
   the ValueError on unbalanced brackets in the netloc are omitted, as no
   property here depends on them. -/

namespace SiteMapper

/- Section: Python string primitives modelled over character lists, so that
   every definition evaluates inside the kernel. -/

/-- Models Python str.lower (ASCII case folding suffices for URLs). -/
def lower (s : String) : String := String.mk (s.data.map Char.toLower)

/-- Models Python str.endswith. -/
def endsWithStr (s suffix : String) : Bool := suffix.data.isSuffixOf s.data

/-- Models Python str.split with a one-character separator. -/
def splitOnChar (sep : Char) : List Char → List (List Char)
  | [] => [[]]
  | c :: rest =>
    if c = sep then [] :: splitOnChar sep rest
    else
      match splitOnChar sep rest with
      | [] => [[c]]
      | g :: gs => (c :: g) :: gs

/-- Models Python "a/b/c".split with separator slash, on strings. -/
def splitSlash (s : String) : List String := (splitOnChar '/' s.data).map String.mk

/-- Models Python "/".join. -/
def joinSlash : List String → String
  | [] => ""
  | [p] => p
  | p :: rest => p ++ "/" ++ joinSlash rest

/- Section: model of urllib.parse (CPython) restricted to the five
   components used by the program. -/

/-- Result of urlsplit: scheme, netloc, path, query, fragment. -/
structure SplitResult where
  scheme : String
  netloc : String
  path : String
  query : String
  fragment : String
deriving DecidableEq, Repr

/-- The characters CPython accepts inside a URL scheme. -/
def scheme_chars : List Char :=
  "abcdefghijklmnopqrstuvwxyzABCDEFGHIJKLMNOPQRSTUVWXYZ0123456789+-.".data

/-- Models CPython urllib.parse.urlsplit with a default scheme: strips
leading C0-control/space characters, removes tab, CR and LF, then splits
off scheme (lowercased, first character alphabetic, remaining characters
in scheme_chars), netloc (after a double slash, up to the first slash,
question mark or hash), fragment (after the first hash), and query (after
the first question mark of what remains). -/
def urlsplitWith (url : String) (defaultScheme : String) : SplitResult :=
  let cs1 := url.data.dropWhile (fun c => c.toNat ≤ 32)
  let cs := cs1.filter (fun c => !(c = '\t' || c = '\r' || c = '\n'))
  let sr :=
    match cs.findIdx? (fun c => c = ':') with
    | some i =>
      if 0 < i ∧ (cs.take 1).all (fun c => c.isAlpha) ∧ (cs.take i).all (fun c => c ∈ scheme_chars) then
        (String.mk ((cs.take i).map Char.toLower), cs.drop (i + 1))
      else (defaultScheme, cs)
    | none => (defaultScheme, cs)
  let scheme := sr.1
  let rest0 := sr.2
  let nr :=
    if rest0.take 2 = ['/', '/'] then
      let after := rest0.drop 2
      let j := after.findIdx (fun c => c = '/' || c = '?' || c = '#')
      (String.mk (after.take j), after.drop j)
    else ("", rest0)
  let netloc := nr.1
  let rest1 := nr.2
  let rf :=
    match rest1.findIdx? (fun c => c = '#') with
    | some i => (rest1.take i, String.mk (rest1.drop (i + 1)))
    | none => (rest1, "")
  let rest2 := rf.1
  let fragment := rf.2
  let pq :=
    match rest2.findIdx? (fun c => c = '?') with
    | some i => (String.mk (rest2.take i), String.mk (rest2.drop (i + 1)))
    | none => (String.mk rest2, "")
  { scheme := scheme, netloc := netloc, path := pq.1, query := pq.2, fragment := fragment }

/-- Models urllib.parse.urlparse as used by the program (params ignored). -/
def urlparse (url : String) : SplitResult := urlsplitWith url ""

/-- Models urllib.parse.urlunsplit. -/
def urlunsplit (scheme netloc path query fragment : String) : String :=
  let url0 :=
    if netloc ≠ "" ∨ path.data.take 2 = ['/', '/'] then
      let p := if path ≠ "" ∧ ¬ path.data.take 1 = ['/'] then "/" ++ path else path
      "//" ++ netloc ++ p
    else path
  let url1 := if scheme ≠ "" then scheme ++ ":" ++ url0 else url0
  let url2 := if query ≠ "" then url1 ++ "?" ++ query else url1
  if fragment ≠ "" then url2 ++ "#" ++ fragment else url2

/-- CPython urllib.parse.uses_relative. -/
def uses_relative : List String :=
  ["", "ftp", "http", "gopher", "nntp", "imap", "wais", "file", "https", "shttp",
   "mms", "prospero", "rtsp", "rtspu", "sftp", "svn", "svn+ssh", "ws", "wss"]

/-- CPython urllib.parse.uses_netloc. -/
def uses_netloc : List String :=
  ["", "ftp", "http", "gopher", "nntp", "telnet", "imap", "wais", "file", "mms",
   "https", "shttp", "snews", "prospero", "rtsp", "rtspu", "rsync", "svn",
   "svn+ssh", "sftp", "nfs", "git", "git+ssh", "ws", "wss", "itms-services"]

/-- Models Python segment assignment segments[1:-1] = filter(None, segments[1:-1]). -/
def filterMidNonempty (l : List String) : List String :=
  match l with
  | [] => []
  | [x] => [x]
  | x :: xs => x :: ((xs.dropLast.filter (fun s => s != "")) ++ xs.drop (xs.length - 1))

/-- Models urllib.parse.urljoin (CPython, RFC 3986 based segment resolution),
without the params component. -/
def urljoin (base url : String) : String :=
  if base = "" then url
  else if url = "" then base
  else
    let b := urlparse base
    let u := urlsplitWith url b.scheme
    if ¬ (u.scheme = b.scheme ∧ u.scheme ∈ uses_relative) then url
    else if u.scheme ∈ uses_netloc ∧ u.netloc ≠ "" then
      urlunsplit u.scheme u.netloc u.path u.query u.fragment
    else
      let netloc := if u.scheme ∈ uses_netloc then b.netloc else u.netloc
      if u.path = "" then
        urlunsplit u.scheme netloc b.path (if u.query = "" then b.query else u.query) u.fragment
      else
        let base_parts0 := splitSlash b.path
        let base_parts := if base_parts0.getLast? = some "" then base_parts0 else base_parts0.dropLast
        let segments :=
          if u.path.data.take 1 = ['/'] then splitSlash u.path
          else filterMidNonempty (base_parts ++ splitSlash u.path)
        let resolved0 := segments.foldl
          (fun acc seg =>
            if seg = ".." then acc.dropLast
            else if seg = "." then acc
            else acc ++ [seg]) []
        let resolved :=
          if segments.getLast? = some "." ∨ segments.getLast? = some ".." then resolved0 ++ [""]
          else resolved0
        let p := joinSlash resolved
        urlunsplit u.scheme netloc (if p = "" then "/" else p) u.query u.fragment

/- Section: the SitemapGenerator class (src/sitemap_generator.py lines 10-52). -/

/-- The immutable per-run configuration created by SitemapGenerator.__init__
(line 11-22): base URL, max pages, ignore set and the domain derived once
from the base URL.  The mutable visited set is threaded separately. -/
structure SitemapGenerator where
  base_url : String
  max_pages : Int
  ignore_urls : List String
  domain : String
deriving DecidableEq, Repr

/-- Models SitemapGenerator.__init__: stores the arguments and derives
domain = urlparse(base_url).netloc (line 22).  Python turns ignore_urls
into a set; a list with membership tests models that set. -/
def SitemapGenerator.init (base_url : String) (max_pages : Int)
    (ignore_urls : List String) : SitemapGenerator :=
  { base_url := base_url, max_pages := max_pages, ignore_urls := ignore_urls,
    domain := (urlparse base_url).netloc }

/-- The blocked file extensions (lines 48-51). -/
def file_extensions : List String :=
  [".pdf", ".jpg", ".jpeg", ".png", ".gif", ".zip", ".csv", ".docx", ".xlsx", ".txt"]

/-- Models SitemapGenerator._is_file_url (lines 41-52): the WHOLE lowercased
URL string is tested with endswith against each blocked extension. -/
def is_file_url (url : String) : Bool :=
  file_extensions.any (fun ext => endsWithStr (lower url) ext)

/-- Models SitemapGenerator.is_valid_url (lines 24-39) against an explicit
visited list standing for self.visited_urls. -/
def is_valid_url (g : SitemapGenerator) (visited : List String) (url : String) : Bool :=
  let parsed := urlparse url
  decide (parsed.netloc = g.domain) &&
  (decide (parsed.scheme = "http") || decide (parsed.scheme = "https")) &&
  !(is_file_url url) &&
  !(visited.contains url) &&
  !(g.ignore_urls.contains url) &&
  decide ((visited.length : Int) < g.max_pages)

/- Section: the crawl loop (lines 54-86). -/

/-- Outcome of one call to requests.get plus BeautifulSoup link extraction:
either a requests.RequestException, or a status code together with the raw
href attribute values of the anchor tags on the page. -/
inductive FetchResult where
  | err : FetchResult
  | success (status : Int) (hrefs : List String) : FetchResult
deriving DecidableEq, Repr

/-- The external world of one crawl run: fetch gives the result of the n-th
fetch attempt (so every possible sequence of fetch results is covered), and
setList models the arbitrary, hash-seed dependent iteration order CPython
uses when list(...) is applied to the visited set in line 86 - constrained
only to be an enumeration (a permutation) of the set's elements. -/
structure CrawlEnv where
  fetch : Nat → String → FetchResult
  setList : List String → List String
  setList_perm : ∀ l : List String, (setList l).Perm l

/-- The mutable crawl state: visited in insertion order (the Python set plus
its insertion history), the frontier list urls_to_crawl, and the log of URLs
on which requests.get was attempted (in order). -/
structure CrawlState where
  visited : List String
  frontier : List String
  fetched : List String
deriving DecidableEq, Repr

/-- Models the while loop of crawl_urls (lines 62-85).  Pop the frontier
head; skip if already visited; otherwise attempt the fetch; on status 200
record the URL as visited and enqueue every extracted link that resolves
(urljoin, line 78) to a URL passing is_valid_url; on a transport error or
any other status just continue with the next frontier entry. -/
def crawl_loop (env : CrawlEnv) (g : SitemapGenerator) (s : CrawlState) : CrawlState :=
  match hf : s.frontier with
  | [] => s
  | current_url :: rest =>
    if hm : ((s.visited.length : Int) < g.max_pages) then
      if s.visited.contains current_url then
        crawl_loop env g { visited := s.visited, frontier := rest, fetched := s.fetched }
      else
        match env.fetch s.fetched.length current_url with
        | FetchResult.err =>
          crawl_loop env g
            { visited := s.visited, frontier := rest, fetched := s.fetched ++ [current_url] }
        | FetchResult.success status hrefs =>
          if status = 200 then
            let visited2 := s.visited ++ [current_url]
            let newLinks := (hrefs.map (fun href => urljoin current_url href)).filter
              (fun absolute_url => is_valid_url g visited2 absolute_url)
            crawl_loop env g
              { visited := visited2, frontier := rest ++ newLinks,
                fetched := s.fetched ++ [current_url] }
          else
            crawl_loop env g
              { visited := s.visited, frontier := rest, fetched := s.fetched ++ [current_url] }
    else s
termination_by ((g.max_pages - s.visited.length).toNat, s.frontier.length)
decreasing_by
  all_goals simp_wf
  all_goals first
    | (left; omega)
    | (right; simp [hf])

/-- The state at the start of crawl_urls (line 60): frontier holds the base
URL, nothing visited, nothing fetched. -/
def initState (g : SitemapGenerator) : CrawlState :=
  { visited := [], frontier := [g.base_url], fetched := [] }

/-- The final crawl state of a run of crawl_urls. -/
def crawl_run (env : CrawlEnv) (g : SitemapGenerator) : CrawlState :=
  crawl_loop env g (initState g)

/-- Models crawl_urls (lines 54-86): run the loop from the initial state and
return list(self.visited_urls) - the visited set enumerated in the
environment's set-iteration order. -/
def crawl_urls (env : CrawlEnv) (g : SitemapGenerator) : List String :=
  env.setList (crawl_run env g).visited

/- Section: branch equations of the loop. -/

lemma crawl_loop_nil (env : CrawlEnv) (g : SitemapGenerator) (s : CrawlState)
    (h : s.frontier = []) : crawl_loop env g s = s := by
  obtain ⟨v, f, log⟩ := s
  simp only [CrawlState.frontier] at h
  subst h
  rw [crawl_loop]

lemma crawl_loop_stop (env : CrawlEnv) (g : SitemapGenerator) (s : CrawlState)
    (h : ¬ ((s.visited.length : Int) < g.max_pages)) : crawl_loop env g s = s := by
  obtain ⟨v, f, log⟩ := s
  rw [crawl_loop]
  cases f with
  | nil => rfl
  | cons u rest => simp only [h, dite_false]

lemma crawl_loop_skip (env : CrawlEnv) (g : SitemapGenerator) (s : CrawlState)
    (u : String) (rest : List String) (hf : s.frontier = u :: rest)
    (hm : (s.visited.length : Int) < g.max_pages)
    (hv : s.visited.contains u = true) :
    crawl_loop env g s = crawl_loop env g ⟨s.visited, rest, s.fetched⟩ := by
  obtain ⟨v, f, log⟩ := s
  simp only [CrawlState.frontier] at hf
  subst hf
  rw [crawl_loop]
  simp only at hm hv
  simp only [hm, dite_true, hv, if_true]

lemma crawl_loop_err (env : CrawlEnv) (g : SitemapGenerator) (s : CrawlState)
    (u : String) (rest : List String) (hf : s.frontier = u :: rest)
    (hm : (s.visited.length : Int) < g.max_pages)
    (hv : s.visited.contains u = false)
    (hr : env.fetch s.fetched.length u = FetchResult.err) :
    crawl_loop env g s = crawl_loop env g ⟨s.visited, rest, s.fetched ++ [u]⟩ := by
  obtain ⟨v, f, log⟩ := s
  simp only [CrawlState.frontier] at hf
  subst hf
  rw [crawl_loop]
  simp only at hm hv hr
  simp only [hm, dite_true, hv, Bool.false_eq_true, if_false, hr]

lemma crawl_loop_non200 (env : CrawlEnv) (g : SitemapGenerator) (s : CrawlState)
    (u : String) (rest : List String) (status : Int) (hrefs : List String)
    (hf : s.frontier = u :: rest)
    (hm : (s.visited.length : Int) < g.max_pages)
    (hv : s.visited.contains u = false)
    (hr : env.fetch s.fetched.length u = FetchResult.success status hrefs)
    (hs : status ≠ 200) :
    crawl_loop env g s = crawl_loop env g ⟨s.visited, rest, s.fetched ++ [u]⟩ := by
  obtain ⟨v, f, log⟩ := s
  simp only [CrawlState.frontier] at hf
  subst hf
  rw [crawl_loop]
  simp only at hm hv hr
  simp only [hm, dite_true, hv, Bool.false_eq_true, if_false, hr, hs, ite_false]

lemma crawl_loop_success (env : CrawlEnv) (g : SitemapGenerator) (s : CrawlState)
    (u : String) (rest : List String) (hrefs : List String)
    (hf : s.frontier = u :: rest)
    (hm : (s.visited.length : Int) < g.max_pages)
    (hv : s.visited.contains u = false)
    (hr : env.fetch s.fetched.length u = FetchResult.success 200 hrefs) :
    crawl_loop env g s = crawl_loop env g
      ⟨s.visited ++ [u],
       rest ++ (hrefs.map (fun href => urljoin u href)).filter
         (fun a => is_valid_url g (s.visited ++ [u]) a),
       s.fetched ++ [u]⟩ := by
  obtain ⟨v, f, log⟩ := s
  simp only [CrawlState.frontier] at hf
  subst hf
  rw [crawl_loop]
  simp only at hm hv hr
  simp only [hm, dite_true, hv, Bool.false_eq_true, if_false, hr, ite_true]

/- Section: characterisation of the validity predicate. -/

/-- The six conjuncts of is_valid_url, unbundled into propositions. -/
lemma is_valid_url_iff (g : SitemapGenerator) (visited : List String) (url : String) :
    is_valid_url g visited url = true ↔
      (urlparse url).netloc = g.domain ∧
      ((urlparse url).scheme = "http" ∨ (urlparse url).scheme = "https") ∧
      is_file_url url = false ∧
      url ∉ visited ∧
      url ∉ g.ignore_urls ∧
      (visited.length : Int) < g.max_pages := by
  simp [is_valid_url, List.elem_iff, Bool.not_eq_true', and_assoc]

lemma not_mem_of_not_contains (l : List String) (u : String)
    (h : ¬ l.contains u = true) : u ∉ l :=
  fun hm => h (List.elem_eq_true_of_mem hm)

/-- A URL already in the visited set is rejected by is_valid_url. -/
lemma is_valid_url_of_mem (g : SitemapGenerator) (visited : List String) (url : String)
    (h : url ∈ visited) : is_valid_url g visited url = false := by
  rw [Bool.eq_false_iff]
  intro hc
  exact ((is_valid_url_iff g visited url).mp hc).2.2.2.1 h

/- Section: the crawl invariant.  Every URL that ever enters the frontier,
the visited set or the fetch log is either the base URL (enqueued without
any check in line 60) or has passed is_valid_url, whose state-independent
clauses are recorded by LinkOk. -/

/-- The state-independent clauses of is_valid_url. -/
def LinkOk (g : SitemapGenerator) (u : String) : Prop :=
  (urlparse u).netloc = g.domain ∧
  ((urlparse u).scheme = "http" ∨ (urlparse u).scheme = "https") ∧
  is_file_url u = false ∧
  u ∉ g.ignore_urls

/-- Invariant maintained by the crawl loop. -/
def StateOk (g : SitemapGenerator) (s : CrawlState) : Prop :=
  (∀ u ∈ s.frontier, u = g.base_url ∨ LinkOk g u) ∧
  (∀ u ∈ s.visited, u = g.base_url ∨ LinkOk g u) ∧
  (∀ u ∈ s.fetched, u = g.base_url ∨ LinkOk g u) ∧
  (∀ u ∈ s.visited, u ∈ s.fetched) ∧
  s.visited.Nodup

lemma StateOk_init (g : SitemapGenerator) : StateOk g (initState g) := by
  simp [StateOk, initState]

lemma crawl_loop_StateOk (env : CrawlEnv) (g : SitemapGenerator) (s : CrawlState)
    (h : StateOk g s) : StateOk g (crawl_loop env g s) := by
  induction s using crawl_loop.induct env g with
  | case1 s hf =>
    rwa [crawl_loop_nil env g s hf]
  | case2 s u rest hf hm hv ih =>
    rw [crawl_loop_skip env g s u rest hf hm hv]
    apply ih
    obtain ⟨h1, h2, h3, h4, h5⟩ := h
    rw [hf] at h1
    exact ⟨fun x hx => h1 x (List.mem_cons_of_mem u hx), h2, h3, h4, h5⟩
  | case3 s u rest hf hm hv hr ih =>
    have hv2 : s.visited.contains u = false := by simpa using hv
    rw [crawl_loop_err env g s u rest hf hm hv2 hr]
    apply ih
    obtain ⟨h1, h2, h3, h4, h5⟩ := h
    rw [hf] at h1
    refine ⟨fun x hx => h1 x (List.mem_cons_of_mem u hx), h2, ?_, ?_, h5⟩
    · intro x hx
      rcases List.mem_append.mp hx with hx | hx
      · exact h3 x hx
      · rw [List.mem_singleton.mp hx]
        exact h1 u (List.mem_cons_self u rest)
    · intro x hx
      exact List.mem_append_left _ (h4 x hx)
  | case4 s u rest hf hm hv hrefs v2 nl hfetch ih =>
    have hv2 : s.visited.contains u = false := by simpa using hv
    rw [crawl_loop_success env g s u rest hrefs hf hm hv2 hfetch]
    apply ih
    obtain ⟨h1, h2, h3, h4, h5⟩ := h
    rw [hf] at h1
    have hu : u = g.base_url ∨ LinkOk g u := h1 u (List.mem_cons_self u rest)
    have hvmem : u ∉ s.visited := not_mem_of_not_contains _ _ hv
    refine ⟨?_, ?_, ?_, ?_, ?_⟩
    · intro x hx
      rcases List.mem_append.mp hx with hx | hx
      · exact h1 x (List.mem_cons_of_mem u hx)
      · right
        have hval := List.of_mem_filter hx
        have hps := (is_valid_url_iff g (s.visited ++ [u]) x).mp hval
        exact ⟨hps.1, hps.2.1, hps.2.2.1, hps.2.2.2.2.1⟩
    · intro x hx
      rcases List.mem_append.mp hx with hx | hx
      · exact h2 x hx
      · rw [List.mem_singleton.mp hx]
        exact hu
    · intro x hx
      rcases List.mem_append.mp hx with hx | hx
      · exact h3 x hx
      · rw [List.mem_singleton.mp hx]
        exact hu
    · intro x hx
      rcases List.mem_append.mp hx with hx | hx
      · exact List.mem_append_left _ (h4 x hx)
      · exact List.mem_append_right _ hx
    · show (s.visited ++ [u]).Nodup
      simp [List.nodup_append, h5, hvmem]
  | case5 s u rest hf hm hv status hrefs hr hs ih =>
    have hv2 : s.visited.contains u = false := by simpa using hv
    rw [crawl_loop_non200 env g s u rest status hrefs hf hm hv2 hr hs]
    apply ih
    obtain ⟨h1, h2, h3, h4, h5⟩ := h
    rw [hf] at h1
    refine ⟨fun x hx => h1 x (List.mem_cons_of_mem u hx), h2, ?_, ?_, h5⟩
    · intro x hx
      rcases List.mem_append.mp hx with hx | hx
      · exact h3 x hx
      · rw [List.mem_singleton.mp hx]
        exact h1 u (List.mem_cons_self u rest)
    · intro x hx
      exact List.mem_append_left _ (h4 x hx)
  | case6 s u rest hf hm =>
    rwa [crawl_loop_stop env g s hm]

/-- The final state of any run satisfies the invariant. -/
lemma crawl_run_StateOk (env : CrawlEnv) (g : SitemapGenerator) :
    StateOk g (crawl_run env g) :=
  crawl_loop_StateOk env g (initState g) (StateOk_init g)

/- Section: the page-count bound. -/

lemma crawl_loop_length_le (env : CrawlEnv) (g : SitemapGenerator) (s : CrawlState)
    (h : (s.visited.length : Int) ≤ g.max_pages) :
    (((crawl_loop env g s).visited.length : Int)) ≤ g.max_pages := by
  induction s using crawl_loop.induct env g with
  | case1 s hf => rwa [crawl_loop_nil env g s hf]
  | case2 s u rest hf hm hv ih =>
    rw [crawl_loop_skip env g s u rest hf hm hv]
    exact ih h
  | case3 s u rest hf hm hv hr ih =>
    have hv2 : s.visited.contains u = false := by simpa using hv
    rw [crawl_loop_err env g s u rest hf hm hv2 hr]
    exact ih h
  | case4 s u rest hf hm hv hrefs v2 nl hfetch ih =>
    have hv2 : s.visited.contains u = false := by simpa using hv
    rw [crawl_loop_success env g s u rest hrefs hf hm hv2 hfetch]
    apply ih
    show (((s.visited ++ [u]).length : Int)) ≤ g.max_pages
    simp only [List.length_append, List.length_singleton]
    push_cast
    omega
  | case5 s u rest hf hm hv status hrefs hr hs ih =>
    have hv2 : s.visited.contains u = false := by simpa using hv
    rw [crawl_loop_non200 env g s u rest status hrefs hf hm hv2 hr hs]
    exact ih h
  | case6 s u rest hf hm =>
    rwa [crawl_loop_stop env g s hm]

/- Section: the XML sitemap writer, generate_sitemap (lines 88-110).  The
ElementTree construction of lines 97-101 is modelled as a tree; the
tostring / minidom.parseString pair of line 104 is the identity on that
tree (serialising and reparsing XML), and toprettyxml is modelled after
minidom's writexml with two-space indent and newline, including its rule
that an element whose only child is a text node is written on one line. -/

/-- An XML tree: elements with attributes and children, and text nodes. -/
inductive XmlNode where
  | elem (tag : String) (attrs : List (String × String)) (children : List XmlNode)
  | text (data : String)

/-- Escaping of one character, as performed by minidom._write_data via the
sequential replaces of the characters ampersand, less-than, double quote
and greater-than; the replacement strings contain none of the later
targets, so the chain acts as this per-character map. -/
def escChar (c : Char) : List Char :=
  if c = '&' then ['&', 'a', 'm', 'p', ';']
  else if c = '<' then ['&', 'l', 't', ';']
  else if c = '"' then ['&', 'q', 'u', 'o', 't', ';']
  else if c = '>' then ['&', 'g', 't', ';']
  else [c]

/-- Models minidom._write_data applied to text and attribute data. -/
def xml_escape (s : String) : String := String.mk (s.data.map escChar).flatten

/-- Concatenation of a list of strings (Python string joining with writes). -/
def strConcat : List String → String
  | [] => ""
  | s :: rest => s ++ strConcat rest

mutual

/-- Models minidom Element.writexml / Text.writexml with the given current
indent, indent increment and newline. -/
def writexml (indent addindent newl : String) : XmlNode → String
  | XmlNode.text data => xml_escape (indent ++ data ++ newl)
  | XmlNode.elem tag attrs children =>
    indent ++ "<" ++ tag ++
      strConcat (attrs.map (fun a => " " ++ a.1 ++ "=\"" ++ xml_escape a.2 ++ "\"")) ++
      (match children with
       | [] => "/>" ++ newl
       | [XmlNode.text t] => ">" ++ xml_escape t ++ "</" ++ tag ++ ">" ++ newl
       | _ => ">" ++ newl ++ writexmlList (indent ++ addindent) addindent newl children ++
              indent ++ "</" ++ tag ++ ">" ++ newl)

/-- minidom's loop writing each child node in turn. -/
def writexmlList (indent addindent newl : String) : List XmlNode → String
  | [] => ""
  | x :: xs => writexml indent addindent newl x ++ writexmlList indent addindent newl xs

end

/-- Models minidom Document.writexml as invoked by toprettyxml(indent="  "):
the XML declaration followed by the pretty-printed root element. -/
def toprettyxml (root : XmlNode) : String :=
  "<?xml version=\"1.0\" ?>" ++ "\n" ++ writexml "" "  " "\n" root

/-- The per-URL element built in lines 100-101: a url element containing a
loc element whose text is the URL. -/
def url_entry (url : String) : XmlNode :=
  XmlNode.elem "url" [] [XmlNode.elem "loc" [] [XmlNode.text url]]

/-- The tree built by lines 97-101: the urlset root carrying the sitemap
namespace declaration with one url entry per input URL, in order. -/
def sitemap_root (urls : List String) : XmlNode :=
  XmlNode.elem "urlset" [("xmlns", "http://www.sitemaps.org/schemas/sitemap/0.9")]
    (urls.map url_entry)

/-- The characters XML 1.0 permits in a document: tab, line feed, carriage
return, and anything from space upward except the non-characters U+FFFE and
U+FFFF (surrogates cannot occur in a Char).  ET.tostring writes any other
character - raw when ASCII, as a character reference otherwise - and expat
then raises ExpatError on it. -/
def xmlValidChar (c : Char) : Bool :=
  c = '\t' || c = '\n' || c = '\r' ||
    (32 ≤ c.toNat && !(c.toNat = 0xFFFE) && !(c.toNat = 0xFFFF))

/-- Expat's end-of-line normalization of raw character data: a carriage
return followed by a line feed, and a lone carriage return, both become a
single line feed.  ET.tostring emits a carriage return in text unescaped
(its escaping touches only ampersand and angle brackets), so the
normalization applies to it when minidom.parseString reads the bytes
back. -/
def normalizeEOL : List Char → List Char
  | [] => []
  | c :: rest =>
    if c = '\r' then
      if rest.take 1 = ['\n'] then '\n' :: normalizeEOL (rest.drop 1)
      else '\n' :: normalizeEOL rest
    else c :: normalizeEOL rest
termination_by l => l.length
decreasing_by all_goals (simp [List.length_drop]; try omega)

/-- Expat's end-of-line normalization on strings. -/
def normalizeEOLStr (s : String) : String := String.mk (normalizeEOL s.data)

/-- The url element as minidom holds it after line 104's
parseString(tostring(...)): ET.tostring omits empty text (serialising the
loc element as an empty tag), and expat end-of-line normalizes the raw
text it reads back. -/
def url_entry_parsed (url : String) : XmlNode :=
  if url = "" then XmlNode.elem "url" [] [XmlNode.elem "loc" [] []]
  else XmlNode.elem "url" [] [XmlNode.elem "loc" [] [XmlNode.text (normalizeEOLStr url)]]

/-- The root element as minidom holds it after line 104. -/
def sitemap_root_parsed (urls : List String) : XmlNode :=
  XmlNode.elem "urlset" [("xmlns", "http://www.sitemaps.org/schemas/sitemap/0.9")]
    (urls.map url_entry_parsed)

/-- The document string generate_sitemap writes to the output file
(lines 97-107): ET.tostring serialises the tree of lines 97-101,
minidom.parseString reads it back - raising ExpatError (hence none, no
document at all) when some URL contains an XML-invalid character, and
otherwise yielding the tree with empty text omitted and carriage returns
end-of-line normalized - and toprettyxml renders it. -/
def generate_sitemap_doc (urls : List String) : Option String :=
  if urls.all (fun u => u.data.all xmlValidChar) then
    some (toprettyxml (sitemap_root_parsed urls))
  else none

/-- XML character-entity decoding of text content, the inverse an XML
parser applies when reading the document back. -/
def unescapeChars : List Char → List Char
  | [] => []
  | c :: cs =>
    if c = '&' then
      if cs.take 4 = ['a', 'm', 'p', ';'] then '&' :: unescapeChars (cs.drop 4)
      else if cs.take 3 = ['l', 't', ';'] then '<' :: unescapeChars (cs.drop 3)
      else if cs.take 3 = ['g', 't', ';'] then '>' :: unescapeChars (cs.drop 3)
      else if cs.take 5 = ['q', 'u', 'o', 't', ';'] then '"' :: unescapeChars (cs.drop 5)
      else c :: unescapeChars cs
    else c :: unescapeChars cs
termination_by l => l.length
decreasing_by all_goals (simp [List.length_drop]; try omega)

lemma length_dropWhile_le (p : Char → Bool) (l : List Char) :
    (l.dropWhile p).length ≤ l.length := by
  induction l with
  | nil => simp
  | cons c cs ih =>
    by_cases h : p c <;> simp [List.dropWhile, h] <;> omega

/-- True on every character except the tag-opening less-than. -/
def notLT (d : Char) : Bool := d ≠ '<'

/-- Parsing the produced document back out: scan for each loc opening tag,
take the text content up to the closing tag and entity-decode it.  Escaped
text contains no literal less-than character, so the next less-than is
exactly the closing tag of the loc element. -/
def scanLocs : List Char → List String
  | [] => []
  | c :: cs =>
    if c = '<' ∧ cs.take 4 = ['l', 'o', 'c', '>'] then
      String.mk (unescapeChars ((cs.drop 4).takeWhile notLT)) ::
        scanLocs ((cs.drop 4).dropWhile notLT)
    else scanLocs cs
termination_by l => l.length
decreasing_by
  all_goals simp
  have h := length_dropWhile_le notLT (rest.drop 4)
  simp [List.length_drop] at h
  omega

/- Section: escaping facts and the text-level round trip. -/

lemma escChar_no_lt (c : Char) : '<' ∉ escChar c := by
  by_cases h1 : c = '&'
  · subst h1; decide
  · by_cases h2 : c = '<'
    · subst h2; decide
    · by_cases h3 : c = '"'
      · subst h3; decide
      · by_cases h4 : c = '>'
        · subst h4; decide
        · rw [show escChar c = [c] from by simp [escChar, h1, h2, h3, h4]]
          simp
          exact fun h => h2 h.symm

lemma xml_escape_no_lt (s : String) : ∀ d ∈ (xml_escape s).data, d ≠ '<' := by
  intro d hd
  have hd2 : d ∈ (s.data.map escChar).flatten := hd
  rw [List.mem_flatten] at hd2
  obtain ⟨blk, hblk, hdblk⟩ := hd2
  rw [List.mem_map] at hblk
  obtain ⟨c, hc, rfl⟩ := hblk
  intro heq
  subst heq
  exact escChar_no_lt c hdblk

lemma unescape_escape_chars (l : List Char) :
    unescapeChars (l.map escChar).flatten = l := by
  induction l with
  | nil =>
    simp only [List.map_nil, List.flatten_nil]
    rw [unescapeChars]
  | cons c cs ih =>
    rw [List.map_cons, List.flatten_cons]
    by_cases h1 : c = '&'
    · subst h1
      show unescapeChars ('&' :: 'a' :: 'm' :: 'p' :: ';' :: (cs.map escChar).flatten) = _
      rw [unescapeChars]
      simp [List.take, List.drop, ih]
    · by_cases h2 : c = '<'
      · subst h2
        show unescapeChars ('&' :: 'l' :: 't' :: ';' :: (cs.map escChar).flatten) = _
        rw [unescapeChars]
        simp [List.take, List.drop, ih]
      · by_cases h3 : c = '"'
        · subst h3
          show unescapeChars ('&' :: 'q' :: 'u' :: 'o' :: 't' :: ';' :: (cs.map escChar).flatten) = _
          rw [unescapeChars]
          simp [List.take, List.drop, ih]
        · by_cases h4 : c = '>'
          · subst h4
            show unescapeChars ('&' :: 'g' :: 't' :: ';' :: (cs.map escChar).flatten) = _
            rw [unescapeChars]
            simp [List.take, List.drop, ih]
          · have : escChar c = [c] := by simp [escChar, h1, h2, h3, h4]
            rw [this]
            show unescapeChars (c :: (cs.map escChar).flatten) = _
            rw [unescapeChars]
            simp [h1, ih]

lemma unescape_xml_escape (u : String) :
    String.mk (unescapeChars (xml_escape u).data) = u := by
  have h : (xml_escape u).data = (u.data.map escChar).flatten := rfl
  rw [h, unescape_escape_chars]

/- Section: stepping lemmas for the document scanner. -/

lemma scanLocs_skip (a b : List Char) (h : ∀ c ∈ a, c ≠ '<') :
    scanLocs (a ++ b) = scanLocs b := by
  induction a with
  | nil => rfl
  | cons c cs ih =>
    have hc : c ≠ '<' := h c (List.mem_cons_self c cs)
    rw [List.cons_append, scanLocs]
    simp only [hc, false_and, if_false]
    exact ih (fun d hd => h d (List.mem_cons_of_mem c hd))

lemma scanLocs_skip_str (a : String) (b : List Char) (h : ∀ c ∈ a.data, c ≠ '<') :
    scanLocs (a.data ++ b) = scanLocs b :=
  scanLocs_skip a.data b h

lemma scanLocs_nil_str (a : String) (h : ∀ c ∈ a.data, c ≠ '<') :
    scanLocs a.data = [] := by
  have h2 := scanLocs_skip a.data [] h
  rw [List.append_nil] at h2
  rw [h2, scanLocs]

lemma scanLocs_ltchunk (a : String) (b : List Char)
    (h4 : 4 ≤ a.data.length) (hne : a.data.take 4 ≠ ['l', 'o', 'c', '>']) :
    scanLocs ('<' :: (a.data ++ b)) = scanLocs (a.data ++ b) := by
  rw [scanLocs]
  have htake : (a.data ++ b).take 4 = a.data.take 4 := by
    rw [List.take_append_eq_append_take, Nat.sub_eq_zero_of_le h4]
    simp
  simp [htake, hne]

lemma notLT_of_ne (c : Char) (h : c ≠ '<') : notLT c = true := by
  simp [notLT, h]

lemma takeWhile_stop (t b : List Char) (h : ∀ c ∈ t, c ≠ '<') :
    (t ++ '<' :: b).takeWhile notLT = t := by
  induction t with
  | nil => simp [List.takeWhile_cons, notLT]
  | cons c cs ih =>
    rw [List.cons_append, List.takeWhile_cons, notLT_of_ne c (h c (List.mem_cons_self c cs))]
    simp only [if_true]
    rw [ih (fun d hd => h d (List.mem_cons_of_mem c hd))]

lemma dropWhile_stop (t b : List Char) (h : ∀ c ∈ t, c ≠ '<') :
    (t ++ '<' :: b).dropWhile notLT = '<' :: b := by
  induction t with
  | nil => simp [List.dropWhile_cons, notLT]
  | cons c cs ih =>
    rw [List.cons_append, List.dropWhile_cons, notLT_of_ne c (h c (List.mem_cons_self c cs))]
    simp only [if_true]
    rw [ih (fun d hd => h d (List.mem_cons_of_mem c hd))]

lemma scanLocs_loc (t b : List Char) (h : ∀ c ∈ t, c ≠ '<') :
    scanLocs ('<' :: 'l' :: 'o' :: 'c' :: '>' :: (t ++ '<' :: b)) =
      String.mk (unescapeChars t) :: scanLocs ('<' :: b) := by
  rw [scanLocs]
  have ht : List.take 4 ('l' :: 'o' :: 'c' :: '>' :: (t ++ '<' :: b)) = ['l', 'o', 'c', '>'] := rfl
  have hd : List.drop 4 ('l' :: 'o' :: 'c' :: '>' :: (t ++ '<' :: b)) = t ++ '<' :: b := rfl
  rw [ht, hd]
  simp only [and_self, if_true]
  rw [takeWhile_stop t b h, dropWhile_stop t b h]

lemma scanLocs_nil : scanLocs [] = [] := by
  rw [scanLocs]

lemma scanLocs_cons_ne (c : Char) (cs : List Char) (h : ¬ c = '<') :
    scanLocs (c :: cs) = scanLocs cs := by
  rw [scanLocs]
  simp [h]

lemma scanLocs_cons_lt (cs : List Char) (h : cs.take 4 ≠ ['l', 'o', 'c', '>']) :
    scanLocs ('<' :: cs) = scanLocs cs := by
  rw [scanLocs]
  simp [h]

/-- Scanning one serialized loc element recovers its URL. -/
lemma scanLocs_loc_esc (u : String) (b : List Char) :
    scanLocs ('<' :: 'l' :: 'o' :: 'c' :: '>' :: ((xml_escape u).data ++ '<' :: b)) =
      u :: scanLocs ('<' :: b) := by
  rw [scanLocs_loc _ _ (xml_escape_no_lt u), unescape_xml_escape]

/-- The sitemap namespace contains no character needing escape. -/
lemma xml_escape_ns :
    xml_escape "http://www.sitemaps.org/schemas/sitemap/0.9" =
      "http://www.sitemaps.org/schemas/sitemap/0.9" := by
  decide

/-- Scanning the rendered url entries recovers the URLs in order. -/
lemma scanLocs_entries (urls : List String) (b : List Char) :
    scanLocs ((writexmlList "  " "  " "\n" (urls.map url_entry)).data ++ ('<' :: b)) =
      urls ++ scanLocs ('<' :: b) := by
  induction urls with
  | nil =>
    rw [List.map_nil]
    rw [show writexmlList "  " "  " "\n" [] = "" from by rw [writexmlList]]
    rfl
  | cons u us ih =>
    rw [List.map_cons]
    rw [show writexmlList "  " "  " "\n" (url_entry u :: us.map url_entry) =
        writexml "  " "  " "\n" (url_entry u) ++
          writexmlList "  " "  " "\n" (us.map url_entry) from by rw [writexmlList]]
    simp only [writexml, writexmlList, url_entry, strConcat, List.map_nil, List.map_cons]
    simp only [String.data_append, List.append_assoc, List.cons_append, List.nil_append]
    simp [scanLocs_cons_ne, scanLocs_cons_lt, scanLocs_loc_esc, ih, List.take]

lemma scanLocs_entries2 (u : String) (us : List String) (b : List Char) :
    scanLocs ((writexmlList "  " "  " "\n"
        (XmlNode.elem "url" [] [XmlNode.elem "loc" [] [XmlNode.text u]] ::
          us.map url_entry)).data ++ ('<' :: b)) =
      u :: (us ++ scanLocs ('<' :: b)) := by
  have h := scanLocs_entries (u :: us) b
  rw [List.map_cons] at h
  simp only [url_entry] at h
  simpa using h

/-- Parsing the pretty-printed rendering of the plain sitemap tree
recovers the input URLs, in order. -/
lemma scanLocs_doc (urls : List String) :
    scanLocs (toprettyxml (sitemap_root urls)).data = urls := by
  cases urls with
  | nil =>
    simp only [toprettyxml, sitemap_root, List.map_nil, writexml,
      strConcat, List.map_cons, xml_escape_ns]
    simp [String.data_append, scanLocs_cons_ne, scanLocs_cons_lt, scanLocs_nil, List.take]
  | cons u us =>
    simp only [toprettyxml, sitemap_root, List.map_cons, writexml,
      strConcat, List.map_nil, url_entry, xml_escape_ns]
    simp [String.data_append, List.append_assoc, scanLocs_cons_ne, scanLocs_cons_lt,
      scanLocs_entries2, scanLocs_nil, List.take]

/-- End-of-line normalization is the identity on carriage-return-free
text. -/
lemma normalizeEOL_of_no_cr (l : List Char) (h : '\r' ∉ l) : normalizeEOL l = l := by
  induction l with
  | nil => rw [normalizeEOL]
  | cons c rest ih =>
    have hc : ¬ c = '\r' := fun he => h (he ▸ List.mem_cons_self c rest)
    rw [normalizeEOL, if_neg hc, ih (fun hm => h (List.mem_cons_of_mem c hm))]

lemma normalizeEOLStr_of_no_cr (u : String) (h : '\r' ∉ u.data) :
    normalizeEOLStr u = u := by
  rw [normalizeEOLStr, normalizeEOL_of_no_cr u.data h]

/-- For a nonempty, carriage-return-free URL the reparsed url element is
the plain one of lines 100-101. -/
lemma url_entry_parsed_of_good (u : String) (hne : u ≠ "") (hcr : '\r' ∉ u.data) :
    url_entry_parsed u = url_entry u := by
  rw [url_entry_parsed, if_neg hne, normalizeEOLStr_of_no_cr u hcr, url_entry]

/-- For nonempty, carriage-return-free URLs the reparsed tree is the plain
tree of lines 97-101. -/
lemma sitemap_root_parsed_of_good (urls : List String)
    (h : ∀ u ∈ urls, u ≠ "" ∧ '\r' ∉ u.data) :
    sitemap_root_parsed urls = sitemap_root urls := by
  rw [sitemap_root_parsed, sitemap_root]
  exact congrArg _ (List.map_congr_left
    (fun u hu => url_entry_parsed_of_good u (h u hu).1 (h u hu).2))

/- Section: a fuel-bounded mirror of the crawl loop.  It is structurally
recursive, so the kernel can evaluate it on closed inputs; the soundness
lemma transfers such evaluations to crawl_loop itself. -/

/-- Fuel-bounded evaluator for crawl_loop; none means the fuel ran out. -/
def crawl_loop_fuel (env : CrawlEnv) (g : SitemapGenerator) :
    Nat → CrawlState → Option CrawlState
  | 0, _ => none
  | fuel + 1, s =>
    match s.frontier with
    | [] => some s
    | current_url :: rest =>
      if (s.visited.length : Int) < g.max_pages then
        if s.visited.contains current_url then
          crawl_loop_fuel env g fuel { visited := s.visited, frontier := rest, fetched := s.fetched }
        else
          match env.fetch s.fetched.length current_url with
          | FetchResult.err =>
            crawl_loop_fuel env g fuel
              { visited := s.visited, frontier := rest, fetched := s.fetched ++ [current_url] }
          | FetchResult.success status hrefs =>
            if status = 200 then
              crawl_loop_fuel env g fuel
                { visited := s.visited ++ [current_url],
                  frontier := rest ++ (hrefs.map (fun href => urljoin current_url href)).filter
                    (fun a => is_valid_url g (s.visited ++ [current_url]) a),
                  fetched := s.fetched ++ [current_url] }
            else
              crawl_loop_fuel env g fuel
                { visited := s.visited, frontier := rest, fetched := s.fetched ++ [current_url] }
      else some s

/-- A completed fuel-bounded evaluation computes crawl_loop. -/
lemma crawl_loop_fuel_sound (env : CrawlEnv) (g : SitemapGenerator) (fuel : Nat) :
    ∀ s s2 : CrawlState, crawl_loop_fuel env g fuel s = some s2 →
      crawl_loop env g s = s2 := by
  induction fuel with
  | zero => intro s s2 h; exact absurd h (by simp [crawl_loop_fuel])
  | succ n ih =>
    intro s s2 h
    rw [crawl_loop_fuel] at h
    cases hf : s.frontier with
    | nil =>
      rw [hf] at h
      simp at h
      rw [crawl_loop_nil env g s hf, h]
    | cons u rest =>
      rw [hf] at h
      simp only at h
      by_cases hm : (s.visited.length : Int) < g.max_pages
      · rw [if_pos hm] at h
        by_cases hv : s.visited.contains u = true
        · rw [if_pos hv] at h
          rw [crawl_loop_skip env g s u rest hf hm hv]
          exact ih _ _ h
        · have hv2 : s.visited.contains u = false := by simpa using hv
          rw [hv2] at h
          simp only [Bool.false_eq_true, if_false] at h
          cases hr : env.fetch s.fetched.length u with
          | err =>
            rw [hr] at h
            rw [crawl_loop_err env g s u rest hf hm hv2 hr]
            exact ih _ _ h
          | success status hrefs =>
            rw [hr] at h
            simp only [] at h
            by_cases hs : status = 200
            · subst hs
              rw [if_pos rfl] at h
              rw [crawl_loop_success env g s u rest hrefs hf hm hv2 hr]
              exact ih _ _ h
            · rw [if_neg hs] at h
              rw [crawl_loop_non200 env g s u rest status hrefs hf hm hv2 hr hs]
              exact ih _ _ h
      · rw [if_neg hm] at h
        simp at h
        rw [crawl_loop_stop env g s hm, h]

/- Section: the validity predicate exactly as the specification words it. -/

/-- Formalisation of the validity predicate following the SPECIFICATION's
words (section 4.1), for comparison with is_valid_url from the code: here
the file-suffix clause inspects the URL's PATH component, where the code
inspects the whole URL string. -/
def isValidSpec (g : SitemapGenerator) (visited : List String) (url : String) : Prop :=
  (urlparse url).netloc = g.domain ∧
  ((urlparse url).scheme = "http" ∨ (urlparse url).scheme = "https") ∧
  (∀ ext ∈ file_extensions, endsWithStr (lower (urlparse url).path) ext = false) ∧
  url ∉ visited ∧
  url ∉ g.ignore_urls ∧
  (visited.length : Int) < g.max_pages

instance (g : SitemapGenerator) (visited : List String) (url : String) :
    Decidable (isValidSpec g visited url) := by
  unfold isValidSpec
  infer_instance

/- Section: concrete environments and runs used by witnesses and
counterexamples. -/

/-- Environment with identity set-iteration order (one legal CPython
enumeration of the visited set). -/
def idOrderEnv (fetch : Nat → String → FetchResult) : CrawlEnv :=
  { fetch := fetch, setList := fun l => l, setList_perm := fun l => List.Perm.refl l }

/-- Environment with reversed set-iteration order (another legal CPython
enumeration of the visited set). -/
def revOrderEnv (fetch : Nat → String → FetchResult) : CrawlEnv :=
  { fetch := fetch, setList := List.reverse, setList_perm := fun l => List.reverse_perm l }

/-- Every fetch succeeds with an empty page. -/
def fetchOk : Nat → String → FetchResult := fun _ _ => FetchResult.success 200 []

/-- Every fetch raises a transport error. -/
def fetchErr : Nat → String → FetchResult := fun _ _ => FetchResult.err

/-- The base page links to a same-domain page a, a same-domain page b, an
external page and a PDF file; every other page is empty. -/
def fetchDemo : Nat → String → FetchResult := fun _ url =>
  if url = "http://example.com/" then
    FetchResult.success 200
      ["http://example.com/a", "http://example.com/b",
       "http://other.example/x", "http://example.com/report.pdf"]
  else FetchResult.success 200 []

/-- Demo configuration: crawl example.com, cap 50, ignoring page b. -/
def gen_demo : SitemapGenerator :=
  SitemapGenerator.init "http://example.com/" 50 ["http://example.com/b"]

/-- Configuration with page cap one. -/
def gen_cap1 : SitemapGenerator :=
  SitemapGenerator.init "http://example.com/" 1 []

/-- Configuration whose ignore set contains the base URL itself. -/
def gen_ignbase : SitemapGenerator :=
  SitemapGenerator.init "http://example.com/" 5 ["http://example.com/"]

/-- Configuration for observing the output order. -/
def gen_two : SitemapGenerator :=
  SitemapGenerator.init "http://example.com/" 10 []

lemma run_demo :
    crawl_run (idOrderEnv fetchDemo) gen_demo =
      { visited := ["http://example.com/", "http://example.com/a"],
        frontier := [],
        fetched := ["http://example.com/", "http://example.com/a"] } :=
  crawl_loop_fuel_sound _ _ 5 _ _ (by decide)

lemma run_cap1 :
    crawl_run (idOrderEnv fetchOk) gen_cap1 =
      { visited := ["http://example.com/"], frontier := [],
        fetched := ["http://example.com/"] } :=
  crawl_loop_fuel_sound _ _ 5 _ _ (by decide)

lemma run_ignbase :
    crawl_run (idOrderEnv fetchOk) gen_ignbase =
      { visited := ["http://example.com/"], frontier := [],
        fetched := ["http://example.com/"] } :=
  crawl_loop_fuel_sound _ _ 5 _ _ (by decide)

lemma run_two :
    crawl_run (revOrderEnv fetchDemo) gen_two =
      { visited := ["http://example.com/", "http://example.com/a", "http://example.com/b"],
        frontier := [],
        fetched := ["http://example.com/", "http://example.com/a", "http://example.com/b"] } :=
  crawl_loop_fuel_sound _ _ 8 _ _ (by decide)

/- Section: the claims. -/

/-- C1 counterexample: the claim says a URL in the ignore set is never
fetched and never output, even when it is the base URL; but the code
enqueues the base URL without any check, so with the base URL in the
ignore set the crawl fetches it and returns it. -/
theorem c1_counterexample :
    "http://example.com/" ∈ gen_ignbase.ignore_urls ∧
    "http://example.com/" ∈ crawl_urls (idOrderEnv fetchOk) gen_ignbase ∧
    "http://example.com/" ∈ (crawl_run (idOrderEnv fetchOk) gen_ignbase).fetched := by
  refine ⟨by decide, ?_, ?_⟩
  · rw [crawl_urls, run_ignbase]
    decide
  · rw [run_ignbase]
    decide

/-- C1 (amended): every URL of the ignore set OTHER THAN the base URL is
never fetched in any crawl run and never appears in the returned list,
for every fetch-result sequence. -/
theorem c1_ignored_never_fetched (env : CrawlEnv) (base : String) (m : Int)
    (ig : List String) (u : String) (hig : u ∈ ig) (hne : u ≠ base) :
    u ∉ (crawl_run env (SitemapGenerator.init base m ig)).fetched ∧
    u ∉ crawl_urls env (SitemapGenerator.init base m ig) := by
  obtain ⟨h1, h2, h3, h4, h5⟩ := crawl_run_StateOk env (SitemapGenerator.init base m ig)
  constructor
  · intro hmem
    rcases h3 u hmem with hb | hl
    · exact hne hb
    · exact hl.2.2.2 hig
  · intro hmem
    rw [crawl_urls] at hmem
    have hv : u ∈ (crawl_run env (SitemapGenerator.init base m ig)).visited :=
      ((env.setList_perm _).mem_iff).mp hmem
    rcases h2 u hv with hb | hl
    · exact hne hb
    · exact hl.2.2.2 hig

theorem c1_witness :
    "http://example.com/b" ∈ gen_demo.ignore_urls ∧
    "http://example.com/b" ≠ "http://example.com/" ∧
    ("http://example.com/b" ∉ (crawl_run (idOrderEnv fetchDemo) gen_demo).fetched ∧
     "http://example.com/b" ∉ crawl_urls (idOrderEnv fetchDemo) gen_demo) :=
  ⟨by decide, by decide,
    c1_ignored_never_fetched (idOrderEnv fetchDemo) "http://example.com/" 50
      ["http://example.com/b"] "http://example.com/b" (by decide) (by decide)⟩

/-- C2: the crawl loop keeps the visited set at or below max_pages at every
step, and (for the spec's configurations, whose page cap is not negative)
the returned list of crawl_urls has length at most max_pages, for every
environment. -/
theorem c2_page_cap (env : CrawlEnv) (base : String) (m : Int) (ig : List String) :
    (∀ s : CrawlState, (s.visited.length : Int) ≤ m →
      (((crawl_loop env (SitemapGenerator.init base m ig) s).visited.length : Int) ≤ m)) ∧
    (0 ≤ m → ((crawl_urls env (SitemapGenerator.init base m ig)).length : Int) ≤ m) := by
  constructor
  · intro s hs
    exact crawl_loop_length_le env (SitemapGenerator.init base m ig) s hs
  · intro hm
    have h := crawl_loop_length_le env (SitemapGenerator.init base m ig)
      (initState (SitemapGenerator.init base m ig)) (by simpa [initState] using hm)
    rw [crawl_urls, (env.setList_perm _).length_eq]
    exact h

theorem c2_witness :
    ((0 : Int) ≤ 50) ∧
    ((((initState gen_demo).visited.length : Int) ≤ 50) ∧
      ((crawl_urls (idOrderEnv fetchDemo) gen_demo).length : Int) ≤ 50) :=
  ⟨by decide,
    (c2_page_cap (idOrderEnv fetchDemo) "http://example.com/" 50
        ["http://example.com/b"]).1 (initState gen_demo) (by decide) |>
      fun _ => ⟨by decide,
        (c2_page_cap (idOrderEnv fetchDemo) "http://example.com/" 50
          ["http://example.com/b"]).2 (by decide)⟩⟩

/-- C3: every URL in the visited set of any run (and hence every URL of the
returned list) has netloc exactly equal to the domain derived from the base
URL at construction. -/
theorem c3_domain_invariant (env : CrawlEnv) (base : String) (m : Int)
    (ig : List String) (u : String) :
    (u ∈ (crawl_run env (SitemapGenerator.init base m ig)).visited →
      (urlparse u).netloc = (SitemapGenerator.init base m ig).domain) ∧
    (u ∈ crawl_urls env (SitemapGenerator.init base m ig) →
      (urlparse u).netloc = (SitemapGenerator.init base m ig).domain) := by
  obtain ⟨h1, h2, h3, h4, h5⟩ := crawl_run_StateOk env (SitemapGenerator.init base m ig)
  have hvis : ∀ v ∈ (crawl_run env (SitemapGenerator.init base m ig)).visited,
      (urlparse v).netloc = (SitemapGenerator.init base m ig).domain := by
    intro v hv
    rcases h2 v hv with hb | hl
    · rw [hb]
      rfl
    · exact hl.1
  constructor
  · exact hvis u
  · intro hmem
    rw [crawl_urls] at hmem
    exact hvis u (((env.setList_perm _).mem_iff).mp hmem)

theorem c3_witness :
    "http://example.com/a" ∈ crawl_urls (idOrderEnv fetchDemo) gen_demo ∧
    (urlparse "http://example.com/a").netloc = gen_demo.domain := by
  have hmem : "http://example.com/a" ∈ crawl_urls (idOrderEnv fetchDemo) gen_demo := by
    rw [crawl_urls, run_demo]
    decide
  exact ⟨hmem,
    (c3_domain_invariant (idOrderEnv fetchDemo) "http://example.com/" 50
      ["http://example.com/b"] "http://example.com/a").2 hmem⟩

/-- C4 counterexample: the claim describes the file-suffix clause as a test
on the URL's PATH; the code tests the whole lowercased URL string, so a URL
whose query string ends in ".pdf" satisfies all six clauses as the claim
words them yet is rejected by is_valid_url. -/
theorem c4_counterexample :
    isValidSpec (SitemapGenerator.init "http://example.com" 50 []) []
      "http://example.com/page?x=.pdf" ∧
    is_valid_url (SitemapGenerator.init "http://example.com" 50 []) []
      "http://example.com/page?x=.pdf" = false := by
  constructor
  · decide
  · decide

/-- C4 (amended): is_valid_url returns true exactly when all six clauses
hold, with the file-suffix clause reading: the WHOLE lowercased URL string
does not end with any blocked extension. -/
theorem c4_validity_characterisation (g : SitemapGenerator) (visited : List String)
    (url : String) :
    is_valid_url g visited url = true ↔
      (urlparse url).netloc = g.domain ∧
      ((urlparse url).scheme = "http" ∨ (urlparse url).scheme = "https") ∧
      (∀ ext ∈ file_extensions, endsWithStr (lower url) ext = false) ∧
      url ∉ visited ∧
      url ∉ g.ignore_urls ∧
      (visited.length : Int) < g.max_pages := by
  rw [is_valid_url_iff]
  have hfile : is_file_url url = false ↔
      ∀ ext ∈ file_extensions, endsWithStr (lower url) ext = false := by
    rw [is_file_url]
    rw [List.any_eq_false]
    constructor
    · intro h ext hext
      simpa using h ext hext
    · intro h ext hext
      simpa using h ext hext
  rw [hfile]

theorem c4_witness :
    is_valid_url gen_demo [] "http://example.com/c" = true :=
  (c4_validity_characterisation gen_demo [] "http://example.com/c").mpr (by decide)

/-- C5: a frontier URL whose fetch raises a transport error or returns a
status other than 200 is not added to the visited set, contributes no
links to the frontier, and the loop simply continues with the remaining
frontier (the embedding is a total function, so no error escapes). -/
theorem c5_failed_fetch_skipped (env : CrawlEnv) (g : SitemapGenerator)
    (s : CrawlState) (u : String) (rest : List String)
    (hf : s.frontier = u :: rest)
    (hm : (s.visited.length : Int) < g.max_pages)
    (hv : s.visited.contains u = false)
    (hbad : env.fetch s.fetched.length u = FetchResult.err ∨
      ∀ status hrefs, env.fetch s.fetched.length u = FetchResult.success status hrefs →
        status ≠ 200) :
    crawl_loop env g s =
      crawl_loop env g { visited := s.visited, frontier := rest, fetched := s.fetched ++ [u] } := by
  rcases hbad with herr | hother
  · exact crawl_loop_err env g s u rest hf hm hv herr
  · cases hr : env.fetch s.fetched.length u with
    | err => exact crawl_loop_err env g s u rest hf hm hv hr
    | success status hrefs =>
      exact crawl_loop_non200 env g s u rest status hrefs hf hm hv hr (hother status hrefs hr)

theorem c5_witness :
    (((⟨[], ["http://example.com/x"], []⟩ : CrawlState).visited.length : Int) <
      gen_demo.max_pages) ∧
    ((⟨[], ["http://example.com/x"], []⟩ : CrawlState).visited.contains
      "http://example.com/x" = false) ∧
    ((idOrderEnv fetchErr).fetch
      (⟨[], ["http://example.com/x"], []⟩ : CrawlState).fetched.length
      "http://example.com/x" = FetchResult.err) ∧
    crawl_loop (idOrderEnv fetchErr) gen_demo ⟨[], ["http://example.com/x"], []⟩ =
      crawl_loop (idOrderEnv fetchErr) gen_demo ⟨[], [], ["http://example.com/x"]⟩ :=
  ⟨by decide, rfl, rfl,
    c5_failed_fetch_skipped (idOrderEnv fetchErr) gen_demo
      ⟨[], ["http://example.com/x"], []⟩ "http://example.com/x" [] rfl (by decide) rfl
      (Or.inl rfl)⟩

/-- C6 counterexample: the claim says crawl_urls returns the visited URLs
in fetch order; but line 86 applies list() to a Python set, whose
iteration order is arbitrary - under a reversed enumeration a two-page...
run returns the reverse of the fetch order. -/
theorem c6_counterexample :
    (crawl_run (revOrderEnv fetchDemo) gen_two).visited =
      ["http://example.com/", "http://example.com/a", "http://example.com/b"] ∧
    crawl_urls (revOrderEnv fetchDemo) gen_two =
      ["http://example.com/b", "http://example.com/a", "http://example.com/"] ∧
    crawl_urls (revOrderEnv fetchDemo) gen_two ≠
      (crawl_run (revOrderEnv fetchDemo) gen_two).visited := by
  refine ⟨run_two ▸ rfl, ?_, ?_⟩
  · rw [crawl_urls, run_two]
    decide
  · rw [crawl_urls, run_two]
    decide

/-- C6 (amended): the list crawl_urls returns is a permutation of the
fetch-order sequence of successfully fetched URLs - same URLs, each
exactly once, in an unspecified set-iteration order. -/
theorem c6_output_permutation (env : CrawlEnv) (g : SitemapGenerator) :
    (crawl_urls env g).Perm ((crawl_run env g).visited) ∧
    ((crawl_run env g).visited).Nodup :=
  ⟨env.setList_perm _, (crawl_run_StateOk env g).2.2.2.2⟩

/-- C7: the code performs NO configuration validation.  With max_pages 0
the constructor succeeds and the run completes normally with an empty
result instead of being rejected; with a malformed base URL the
constructor succeeds (deriving an empty domain), a fetch of the malformed
string IS attempted, its failure is swallowed, and the run again completes
normally - contradicting the claim that such configurations are rejected
with a configuration error before any network activity. -/
theorem c7_no_config_validation :
    (SitemapGenerator.init "http://example.com" 0 []).max_pages = 0 ∧
    crawl_urls (idOrderEnv fetchOk) (SitemapGenerator.init "http://example.com" 0 []) = [] ∧
    (crawl_run (idOrderEnv fetchOk) (SitemapGenerator.init "http://example.com" 0 [])).fetched
      = [] ∧
    SitemapGenerator.init "not a url" 50 [] =
      { base_url := "not a url", max_pages := 50, ignore_urls := [], domain := "" } ∧
    (crawl_run (idOrderEnv fetchErr) (SitemapGenerator.init "not a url" 50 [])).fetched =
      ["not a url"] ∧
    crawl_urls (idOrderEnv fetchErr) (SitemapGenerator.init "not a url" 50 []) = [] := by
  have hz : crawl_run (idOrderEnv fetchOk) (SitemapGenerator.init "http://example.com" 0 [])
      = initState (SitemapGenerator.init "http://example.com" 0 []) :=
    crawl_loop_stop _ _ _ (by decide)
  have hmal : crawl_run (idOrderEnv fetchErr) (SitemapGenerator.init "not a url" 50 []) =
      ⟨[], [], ["not a url"]⟩ :=
    crawl_loop_fuel_sound _ _ 5 _ _ (by decide)
  refine ⟨rfl, ?_, ?_, by decide, ?_, ?_⟩
  · rw [crawl_urls, hz]
    rfl
  · rw [hz]
    rfl
  · rw [hmal]
  · rw [crawl_urls, hmal]
    rfl

/-- C8 counterexample: the claim's round trip fails on the program because
line 104 reparses the ET serialization with expat.  A URL containing a
carriage return is serialized raw and end-of-line normalized on reparse, so
the document parses back to a DIFFERENT URL; a URL containing an
XML-invalid control character makes parseString raise ExpatError, so no
document is produced at all; and an empty URL is serialized as an empty
loc element, whose parse-back yields no URL. -/
theorem c8_counterexample :
    Option.map (fun d => scanLocs d.data)
      (generate_sitemap_doc ["http://example.com/a\rb"]) =
      some ["http://example.com/a\nb"] ∧
    "http://example.com/a\nb" ≠ "http://example.com/a\rb" ∧
    generate_sitemap_doc ["http://example.com/\x0c"] = none ∧
    generate_sitemap_doc [""] =
      some (toprettyxml (XmlNode.elem "urlset"
        [("xmlns", "http://www.sitemaps.org/schemas/sitemap/0.9")]
        [XmlNode.elem "url" [] [XmlNode.elem "loc" [] []]])) ∧
    scanLocs (toprettyxml (XmlNode.elem "urlset"
        [("xmlns", "http://www.sitemaps.org/schemas/sitemap/0.9")]
        [XmlNode.elem "url" [] [XmlNode.elem "loc" [] []]])).data = [] := by
  refine ⟨?_, by decide, rfl, rfl, ?_⟩
  · rw [generate_sitemap_doc, if_pos (by decide)]
    have hnorm : normalizeEOLStr "http://example.com/a\rb" = "http://example.com/a\nb" := by
      rw [normalizeEOLStr]
      rw [show normalizeEOL "http://example.com/a\rb".data =
          "http://example.com/a\nb".data from by simp [normalizeEOL]]
    have htree : sitemap_root_parsed ["http://example.com/a\rb"] =
        sitemap_root ["http://example.com/a\nb"] := by
      rw [sitemap_root_parsed, sitemap_root]
      simp [url_entry_parsed, url_entry, hnorm]
    rw [htree]
    simp [scanLocs_doc]
  · simp only [toprettyxml, writexml, writexmlList, strConcat, List.map_nil, List.map_cons,
      xml_escape_ns]
    simp [String.data_append, List.append_assoc, scanLocs_cons_ne, scanLocs_cons_lt,
      scanLocs_nil, List.take]

/-- C8 (amended): for every list of URL strings that are nonempty, free of
carriage returns and made of XML-valid characters, the sitemap writer
produces a document (rather than an ExpatError); the reparsed tree is the
urlset root declaring the sitemaps.org 0.9 namespace with exactly one url
element containing one loc element per input URL in order; the loc text is
the URL verbatim up to XML text escaping (entity decoding inverts the
escaping exactly); and parsing the pretty-printed document back out
recovers the same URLs in the same order.  Outside that set the round trip
fails: an XML-invalid character aborts serialization with ExpatError, a
carriage return is rewritten to a line feed by expat, and an empty URL is
collapsed to an empty loc element. -/
theorem c8_sitemap_roundtrip (urls : List String)
    (hgood : ∀ u ∈ urls, u ≠ "" ∧ '\r' ∉ u.data ∧ u.data.all xmlValidChar = true) :
    generate_sitemap_doc urls = some (toprettyxml (sitemap_root_parsed urls)) ∧
    sitemap_root_parsed urls =
      XmlNode.elem "urlset" [("xmlns", "http://www.sitemaps.org/schemas/sitemap/0.9")]
        (urls.map (fun u => XmlNode.elem "url" [] [XmlNode.elem "loc" [] [XmlNode.text u]])) ∧
    (∀ u : String, String.mk (unescapeChars (xml_escape u).data) = u) ∧
    scanLocs (toprettyxml (sitemap_root_parsed urls)).data = urls := by
  have hplain : sitemap_root_parsed urls = sitemap_root urls :=
    sitemap_root_parsed_of_good urls (fun u hu => ⟨(hgood u hu).1, (hgood u hu).2.1⟩)
  refine ⟨?_, ?_, unescape_xml_escape, ?_⟩
  · rw [generate_sitemap_doc, if_pos]
    rw [List.all_eq_true]
    exact fun u hu => (hgood u hu).2.2
  · rw [hplain]
    rfl
  · rw [hplain]
    exact scanLocs_doc urls

theorem c8_witness :
    (∀ u ∈ ["http://example.com/", "http://example.com/a"],
      u ≠ "" ∧ '\r' ∉ u.data ∧ u.data.all xmlValidChar = true) ∧
    (generate_sitemap_doc ["http://example.com/", "http://example.com/a"] =
      some (toprettyxml (sitemap_root_parsed
        ["http://example.com/", "http://example.com/a"])) ∧
     scanLocs (toprettyxml (sitemap_root_parsed
        ["http://example.com/", "http://example.com/a"])).data =
      ["http://example.com/", "http://example.com/a"]) :=
  ⟨by decide,
    (c8_sitemap_roundtrip ["http://example.com/", "http://example.com/a"] (by decide)).1,
    (c8_sitemap_roundtrip ["http://example.com/", "http://example.com/a"] (by decide)).2.2.2⟩

/-- C9 counterexample: the claim says the ONLY clause failing for an output
URL in the post-run state is visited-set membership; but after a run that
reached the page cap the cap clause fails as well. -/
theorem c9_counterexample :
    "http://example.com/" ∈ crawl_urls (idOrderEnv fetchOk) gen_cap1 ∧
    is_valid_url gen_cap1 (crawl_run (idOrderEnv fetchOk) gen_cap1).visited
      "http://example.com/" = false ∧
    ¬ (((crawl_run (idOrderEnv fetchOk) gen_cap1).visited.length : Int) <
      gen_cap1.max_pages) := by
  refine ⟨?_, ?_, ?_⟩
  · rw [crawl_urls, run_cap1]
    decide
  · rw [run_cap1]
    decide
  · rw [run_cap1]
    decide

/-- C9 (amended): every output URL is invalid in the post-run state and is
a member of the visited set; its domain clause holds, and - except possibly
for the base URL - the scheme, file-suffix and ignore clauses hold as well;
only the page-count-cap clause may additionally fail. -/
theorem c9_filter_idempotence (env : CrawlEnv) (base : String) (m : Int)
    (ig : List String) (u : String)
    (hmem : u ∈ crawl_urls env (SitemapGenerator.init base m ig)) :
    is_valid_url (SitemapGenerator.init base m ig)
      (crawl_run env (SitemapGenerator.init base m ig)).visited u = false ∧
    u ∈ (crawl_run env (SitemapGenerator.init base m ig)).visited ∧
    (urlparse u).netloc = (SitemapGenerator.init base m ig).domain ∧
    (u ≠ base →
      ((urlparse u).scheme = "http" ∨ (urlparse u).scheme = "https") ∧
      is_file_url u = false ∧ u ∉ ig) := by
  obtain ⟨h1, h2, h3, h4, h5⟩ := crawl_run_StateOk env (SitemapGenerator.init base m ig)
  rw [crawl_urls] at hmem
  have hv : u ∈ (crawl_run env (SitemapGenerator.init base m ig)).visited :=
    ((env.setList_perm _).mem_iff).mp hmem
  refine ⟨is_valid_url_of_mem _ _ _ hv, hv, ?_, ?_⟩
  · rcases h2 u hv with hb | hl
    · rw [hb]
      rfl
    · exact hl.1
  · intro hne
    rcases h2 u hv with hb | hl
    · exact absurd hb hne
    · exact ⟨hl.2.1, hl.2.2.1, hl.2.2.2⟩

theorem c9_witness :
    "http://example.com/a" ∈ crawl_urls (idOrderEnv fetchDemo) gen_demo ∧
    (is_valid_url gen_demo (crawl_run (idOrderEnv fetchDemo) gen_demo).visited
        "http://example.com/a" = false ∧
      "http://example.com/a" ∈ (crawl_run (idOrderEnv fetchDemo) gen_demo).visited) := by
  have hmem : "http://example.com/a" ∈ crawl_urls (idOrderEnv fetchDemo) gen_demo := by
    rw [crawl_urls, run_demo]
    decide
  have h := c9_filter_idempotence (idOrderEnv fetchDemo) "http://example.com/" 50
    ["http://example.com/b"] "http://example.com/a" hmem
  exact ⟨hmem, h.1, h.2.1⟩

/-- C10: with a non-positive max_pages the loop condition fails before the
first iteration, so no fetch at all is attempted and crawl_urls returns
the empty list. -/
theorem c10_nonpositive_cap (env : CrawlEnv) (base : String) (m : Int)
    (ig : List String) (hm : m ≤ 0) :
    crawl_urls env (SitemapGenerator.init base m ig) = [] ∧
    (crawl_run env (SitemapGenerator.init base m ig)).fetched = [] := by
  have hstop : crawl_run env (SitemapGenerator.init base m ig) =
      initState (SitemapGenerator.init base m ig) := by
    apply crawl_loop_stop
    simp [initState, SitemapGenerator.init]
    omega
  constructor
  · rw [crawl_urls, hstop]
    exact (env.setList_perm []).eq_nil
  · rw [hstop]
    rfl

theorem c10_witness :
    ((0 : Int) ≤ 0) ∧
    (crawl_urls (idOrderEnv fetchOk) (SitemapGenerator.init "http://example.com" 0 []) = [] ∧
      (crawl_run (idOrderEnv fetchOk)
        (SitemapGenerator.init "http://example.com" 0 [])).fetched = []) :=
  ⟨by decide,
    c10_nonpositive_cap (idOrderEnv fetchOk) "http://example.com" 0 [] (by decide)⟩

end SiteMapper
